import Mathlib

/-!
Shallow embedding of the ETGL real-time matching subsystem
(`src/api/routes/etgl.ts`): geo math, points ledger, location store,
target selection, proximity verification, NFC-scan confirmation, and the
WebSocket broadcast fan-out.  File-system persistence (`loadPoints` /
`savePoints`) is modelled by threading the storage value explicitly;
`Date.now()` is modelled by an explicit `now : Nat` argument; JS `Map`s
and plain objects keyed by strings are modelled as association lists.
-/

set_option maxHeartbeats 1000000

namespace Etgl

/-- `type GPSCoordinates`: latitude, longitude, optional accuracy, capture
timestamp (epoch millis).  JSON numbers are modelled as reals. -/
structure GPSCoordinates where
  latitude : ℝ
  longitude : ℝ
  accuracy : Option ℝ
  timestamp : ℤ

/-- `type UserLocation`: a participant's last known fix. -/
structure UserLocation where
  userId : String
  coordinates : GPSCoordinates
  lastUpdated : Nat

/-- `type SelectedUsers`: the singleton category-selection record. -/
structure SelectedUsers where
  male : Option String
  female : Option String
  selectedAt : Nat

/-- `type UserPoints`: one participant's points record. -/
structure UserPoints where
  userId : String
  points : Nat
  lastUpdated : Nat
  scannedTargets : List String
deriving DecidableEq

/-- `type PointsStorage = { [userId: string]: UserPoints }`, as an
association list. -/
abbrev PointsStorage := List (String × UserPoints)

/-- `LocationStore`: the `userLocations` map. -/
abbrev LocationStore := List (String × UserLocation)

/-- JS `map.set(k, v)` / `obj[k] = v`: replace the binding for `k`, or
append it when absent. -/
def setEntry {V : Type} : List (String × V) → String → V → List (String × V)
  | [], k, v => [(k, v)]
  | (k', v') :: rest, k, v =>
      if k' = k then (k, v) :: rest else (k', v') :: setEntry rest k v

theorem lookup_setEntry_self {V : Type} (m : List (String × V)) (k : String) (v : V) :
    List.lookup k (setEntry m k v) = some v := by
  induction m with
  | nil => simp [setEntry, List.lookup]
  | cons hd tl ih =>
      by_cases h : hd.1 = k
      · simp [setEntry, h, List.lookup]
      · simp only [setEntry]
        rw [if_neg h]
        simpa [List.lookup, show (k == hd.1) = false by
          simpa using fun hk => h hk.symm] using ih

theorem lookup_setEntry_other {V : Type} (m : List (String × V)) (k k' : String) (v : V)
    (h : k' ≠ k) : List.lookup k' (setEntry m k v) = List.lookup k' m := by
  induction m with
  | nil => simp [setEntry, List.lookup, show (k' == k) = false by simpa using h]
  | cons hd tl ih =>
      by_cases hh : hd.1 = k
      · subst hh
        simp [setEntry, List.lookup, show (k' == hd.1) = false by simpa using h]
      · simp only [setEntry]
        rw [if_neg hh]
        by_cases hk : k' = hd.1
        · simp [List.lookup, hk]
        · simp only [List.lookup, show (k' == hd.1) = false by simpa using hk]
          exact ih

theorem mem_setEntry {V : Type} {m : List (String × V)} {k : String} {v : V}
    {p : String × V} (hp : p ∈ setEntry m k v) : p = (k, v) ∨ p ∈ m := by
  induction m with
  | nil => simpa [setEntry] using hp
  | cons hd tl ih =>
      by_cases h : hd.1 = k
      · simp only [setEntry, if_pos h, List.mem_cons] at hp
        rcases hp with hp | hp
        · exact Or.inl hp
        · exact Or.inr (List.mem_cons_of_mem _ hp)
      · simp only [setEntry, if_neg h, List.mem_cons] at hp
        rcases hp with hp | hp
        · exact Or.inr (by simp [hp])
        · rcases ih hp with hq | hq
          · exact Or.inl hq
          · exact Or.inr (List.mem_cons_of_mem _ hq)

theorem lookup_mem {V : Type} {m : List (String × V)} {k : String} {v : V}
    (h : List.lookup k m = some v) : (k, v) ∈ m := by
  induction m with
  | nil => simp [List.lookup] at h
  | cons hd tl ih =>
      by_cases hk : k = hd.1
      · simp only [List.lookup, show (k == hd.1) = true by simpa using hk,
          Option.some.injEq] at h
        simp [hk, ← h]
      · simp only [List.lookup, show (k == hd.1) = false by simpa using hk] at h
        exact List.mem_cons_of_mem _ (ih h)

/-! ### Geo math (`calculateDistance`, lines 519–532) -/

/-- JS `Math.atan2(y, x)` on the reals (finite inputs, unsigned zero). -/
noncomputable def atan2 (y x : ℝ) : ℝ :=
  if 0 < x then Real.arctan (y / x)
  else if x < 0 then
    (if 0 ≤ y then Real.arctan (y / x) + Real.pi else Real.arctan (y / x) - Real.pi)
  else
    (if 0 < y then Real.pi / 2 else if y < 0 then -(Real.pi / 2) else 0)

/-- `calculateDistance(lat1, lon1, lat2, lon2)`: Haversine great-circle
distance in meters, Earth radius `6371e3`. -/
noncomputable def calculateDistance (lat1 lon1 lat2 lon2 : ℝ) : ℝ :=
  let R : ℝ := 6371e3
  let phi1 := lat1 * Real.pi / 180
  let phi2 := lat2 * Real.pi / 180
  let dPhi := (lat2 - lat1) * Real.pi / 180
  let dLam := (lon2 - lon1) * Real.pi / 180
  let a := Real.sin (dPhi / 2) * Real.sin (dPhi / 2) +
    Real.cos phi1 * Real.cos phi2 * Real.sin (dLam / 2) * Real.sin (dLam / 2)
  let c := 2 * atan2 (Real.sqrt a) (Real.sqrt (1 - a))
  R * c

/-! ### Points ledger (`getUserPoints`, `incrementUserPoints`, lines 561–601) -/

/-- The fresh zero record built by `points[userId] || {...}`. -/
def freshRecord (userId : String) (now : Nat) : UserPoints :=
  { userId := userId, points := 0, lastUpdated := now, scannedTargets := [] }

/-- `getUserPoints(userId)`: the stored record, or a fresh zero record. -/
def getUserPoints (storage : PointsStorage) (userId : String) (now : Nat) : UserPoints :=
  (List.lookup userId storage).getD (freshRecord userId now)

/-- `incrementUserPoints(userId, targetId)`: rejects an already-scanned
target, otherwise adds one point, appends the target, stamps the time and
persists.  Returns the accepted flag and the persisted storage. -/
def incrementUserPoints (storage : PointsStorage) (userId targetId : String)
    (now : Nat) : Bool × PointsStorage :=
  let userPoints := (List.lookup userId storage).getD (freshRecord userId now)
  if targetId ∈ userPoints.scannedTargets then
    (false, storage)
  else
    let updated : UserPoints :=
      { userPoints with
        points := userPoints.points + 1
        scannedTargets := userPoints.scannedTargets ++ [targetId]
        lastUpdated := now }
    (true, setEntry storage userId updated)

/-- A ledger mutation: `(userId, targetId, now)`. -/
abbrev LedgerOp := String × String × Nat

/-- A sequence of `incrementUserPoints` calls applied to a storage. -/
def applyOps (storage : PointsStorage) (ops : List LedgerOp) : PointsStorage :=
  ops.foldl (fun s op => (incrementUserPoints s op.1 op.2.1 op.2.2).2) storage

/-- `leaderboard` (lines 2282–2311): `Object.values(points)` sorted by
point total descending (`(a, b) => b.points - a.points`).  JS `sort` with
that comparator is modelled as a stable sort under
`fun a b => b.points ≤ a.points`. -/
def leaderboardOf (points : PointsStorage) : List UserPoints :=
  List.insertionSort (fun a b => b.points ≤ a.points) (points.map Prod.snd)

/-! ### Location store (`gps_update` case, lines 899–908; read endpoint
`/etgl/ws/locations`, lines 1818–1824) -/

/-- `userLocations.set(message.userId, userLocation)` where
`userLocation = { userId, coordinates: message.data, lastUpdated: Date.now() }`. -/
def locationStoreUpdate (locs : LocationStore) (userId : String)
    (coordinates : GPSCoordinates) (now : Nat) : LocationStore :=
  setEntry locs userId
    { userId := userId, coordinates := coordinates, lastUpdated := now }

/-- The `gps_update` branch of `handleWebSocketMessage`: the store is
written only when `message.userId && message.data` is truthy (the id is a
present, non-empty string and the data is present). -/
def handleGpsUpdate (locs : LocationStore) (userId : Option String)
    (data : Option GPSCoordinates) (now : Nat) : LocationStore :=
  match userId, data with
  | some uid, some coordinates =>
      if uid ≠ "" then locationStoreUpdate locs uid coordinates now else locs
  | _, _ => locs

/-! ### Target selection (`selectRandomUsers`, lines 630–664) -/

/-- The male-category partition of the profile snapshot
(`profile.user?.gender === 'M'`).  A profile is `(userId, gender?)`. -/
def maleUsersOf (profiles : List (String × Option String)) : List String :=
  (profiles.filter (fun p => p.2 = some "M")).map Prod.fst

/-- The female-category partition (`profile.user?.gender === 'F'`). -/
def femaleUsersOf (profiles : List (String × Option String)) : List String :=
  (profiles.filter (fun p => p.2 = some "F")).map Prod.fst

/-- The selection computation of `selectRandomUsers`:
`maleUsers[Math.floor(Math.random() * maleUsers.length)]` when the
category is non-empty, `null` otherwise.  The random draw is modelled by
an arbitrary natural reduced modulo the category size. -/
def selectRandomUsersPure (profiles : List (String × Option String))
    (randM randF now : Nat) : SelectedUsers :=
  let maleUsers := maleUsersOf profiles
  let femaleUsers := femaleUsersOf profiles
  { male :=
      if maleUsers.length > 0 then maleUsers.get? (randM % maleUsers.length) else none
    female :=
      if femaleUsers.length > 0 then femaleUsers.get? (randF % femaleUsers.length) else none
    selectedAt := now }

/-! ### Proximity verification (`/etgl/verify-proximity/:userId/:targetUserId`,
lines 2096–2126) -/

/-- The shared in-memory server state touched by the handlers. -/
structure ServerState where
  userLocations : LocationStore
  selectedUsers : SelectedUsers
  points : PointsStorage

/-- Outcome of the proximity endpoint: 404 when either location is
missing, otherwise the verified flag (`distance <= 100`), the distance
rounded to two decimals, and the fixed threshold. -/
inductive ProximityResult where
  | notFound
  | ok (verified : Prop) (distance : ℝ) (threshold : ℝ)

/-- `Math.round(distance * 100) / 100`. -/
noncomputable def roundTo2 (d : ℝ) : ℝ := (round (d * 100) : ℝ) / 100

/-- The proximity handler: reads both locations, 404s when either is
absent, otherwise compares the Haversine distance to the 100 m threshold.
It returns the (unchanged) server state alongside the result. -/
noncomputable def verifyProximityHandler (st : ServerState)
    (userId targetUserId : String) : ProximityResult × ServerState :=
  match List.lookup userId st.userLocations, List.lookup targetUserId st.userLocations with
  | some userLocation, some targetLocation =>
      let distance := calculateDistance
        userLocation.coordinates.latitude userLocation.coordinates.longitude
        targetLocation.coordinates.latitude targetLocation.coordinates.longitude
      (.ok (distance ≤ 100) (roundTo2 distance) 100, st)
  | _, _ => (.notFound, st)

/-! ### NFC scan confirmation (`/etgl/scan-nfc`, lines 2187–2243) -/

/-- `userGender === 'M' ? 'F' : 'M'`. -/
def oppositeGenderOf (userGender : String) : String :=
  if userGender = "M" then "F" else "M"

/-- `oppositeGender === 'M' ? selectedUsers.male : selectedUsers.female`. -/
def expectedTargetOf (userGender : String) (sel : SelectedUsers) : Option String :=
  if oppositeGenderOf userGender = "M" then sel.male else sel.female

/-- The typed outcome of the scan endpoint past profile resolution. -/
inductive ScanOutcome where
  | noTargetSelected (oppositeGender : String)
  | wrongTarget (scannedTargetId expectedTargetId : String)
  | duplicateRedemption (scannedTargetId : String)
  | success (scannedTargetId : String) (totalPoints : Nat) (scannedTargetsCount : Nat)
deriving DecidableEq

/-- The scan-confirmation core (after the worldid → profile and URL →
target-id resolutions): requires a selected opposite-category target,
requires the scanned id to equal it, then delegates to
`incrementUserPoints`; a `false` ledger answer is reported as a duplicate
redemption.  Returns the outcome and the resulting points storage. -/
def scanNfcCore (userId userGender scannedTargetId : String) (sel : SelectedUsers)
    (storage : PointsStorage) (now : Nat) : ScanOutcome × PointsStorage :=
  match expectedTargetOf userGender sel with
  | none => (.noTargetSelected (oppositeGenderOf userGender), storage)
  | some expectedTargetId =>
      if scannedTargetId ≠ expectedTargetId then
        (.wrongTarget scannedTargetId expectedTargetId, storage)
      else
        let result := incrementUserPoints storage userId scannedTargetId now
        if result.1 then
          let updatedPoints := getUserPoints result.2 userId now
          (.success scannedTargetId updatedPoints.points
            updatedPoints.scannedTargets.length, result.2)
        else
          (.duplicateRedemption scannedTargetId, result.2)

/-! ### Broadcast fan-out (`broadcastToClients`, lines 451–492;
`removeInactiveClients`, lines 494–517) -/

/-- The per-channel record held in `wsClients`. -/
structure ClientInfo where
  id : String
  connectedAt : Nat
  lastActivity : Nat
deriving DecidableEq

/-- A registered channel: its info record, whether
`readyState === WebSocket.OPEN`, and whether a `send` on it would succeed
rather than throw (the oracle for the `try/catch` around `send`). -/
structure WSClient where
  info : ClientInfo
  readyStateOpen : Bool
  sendSucceeds : Bool
deriving DecidableEq

/-- Per-recipient outcome of one fan-out pass. -/
inductive SendOutcome where
  | sent
  | sendFailed
  | skippedNotOpen
deriving DecidableEq

/-- One iteration of the `wsClients.forEach` body: open channels are sent
to (a successful send stamps `lastActivity`; a throwing send is caught
and counted), non-open channels are skipped.  The channel itself is never
removed here. -/
def broadcastStep (now : Nat) (client : WSClient) : SendOutcome × WSClient :=
  if client.readyStateOpen then
    if client.sendSucceeds then
      (.sent, { client with info := { client.info with lastActivity := now } })
    else (.sendFailed, client)
  else (.skippedNotOpen, client)

/-- Result of one fan-out pass: the per-recipient outcomes in visit
order, the `sentCount` / `failedCount` tallies, and the registry after
the pass. -/
structure BroadcastResult where
  outcomes : List (String × SendOutcome)
  sentCount : Nat
  failedCount : Nat
  clients : List WSClient
deriving DecidableEq

/-- `broadcastToClients(message)`: visit every registered channel once,
tallying successes and failures; errors are swallowed per recipient. -/
def broadcastToClients (clients : List WSClient) (now : Nat) : BroadcastResult :=
  match clients with
  | [] => { outcomes := [], sentCount := 0, failedCount := 0, clients := [] }
  | c :: rest =>
      let step := broadcastStep now c
      let r := broadcastToClients rest now
      { outcomes := (c.info.id, step.1) :: r.outcomes
        sentCount := if step.1 = SendOutcome.sent then r.sentCount + 1 else r.sentCount
        failedCount := if step.1 = SendOutcome.sent then r.failedCount else r.failedCount + 1
        clients := step.2 :: r.clients }

/-- `removeInactiveClients()`: the cleanup sweep deletes exactly the
channels whose `readyState` is not `OPEN`. -/
def removeInactiveClients (clients : List WSClient) : List WSClient :=
  clients.filter (fun c => c.readyStateOpen)

/-! ### Ledger lemmas -/

theorem getUserPoints_scannedTargets_now (s : PointsStorage) (u : String) (n n' : Nat) :
    (getUserPoints s u n).scannedTargets = (getUserPoints s u n').scannedTargets := by
  cases hl : List.lookup u s <;> simp [getUserPoints, hl, freshRecord]

theorem getUserPoints_points_now (s : PointsStorage) (u : String) (n n' : Nat) :
    (getUserPoints s u n).points = (getUserPoints s u n').points := by
  cases hl : List.lookup u s <;> simp [getUserPoints, hl, freshRecord]

/-- A target already in the redeemed set is rejected without mutation. -/
theorem increment_already_scanned {s : PointsStorage} {u t : String} {n : Nat}
    (h : t ∈ (getUserPoints s u n).scannedTargets) (n' : Nat) :
    incrementUserPoints s u t n' = (false, s) := by
  cases hl : List.lookup u s with
  | none => simp [getUserPoints, hl, freshRecord] at h
  | some r =>
      simp only [getUserPoints, hl, Option.getD_some] at h
      simp [incrementUserPoints, hl, h]

/-- A not-yet-redeemed target is accepted: one point is added and the
target is appended once to the redeemed set. -/
theorem increment_accepts {s : PointsStorage} {u t : String} {n : Nat}
    (h : t ∉ (getUserPoints s u n).scannedTargets) (n' m : Nat) :
    (incrementUserPoints s u t n').1 = true ∧
    (getUserPoints (incrementUserPoints s u t n').2 u m).points
      = (getUserPoints s u n).points + 1 ∧
    (getUserPoints (incrementUserPoints s u t n').2 u m).scannedTargets
      = (getUserPoints s u n).scannedTargets ++ [t] := by
  cases hl : List.lookup u s with
  | none =>
      simp only [getUserPoints, hl, Option.getD_none] at h ⊢
      simp [incrementUserPoints, hl, freshRecord, getUserPoints,
        lookup_setEntry_self]
  | some r =>
      simp only [getUserPoints, hl, Option.getD_some] at h ⊢
      simp [incrementUserPoints, hl, h, getUserPoints, lookup_setEntry_self]

/-- `increment` preserves "point total = number of redeemed targets"
across the whole storage. -/
theorem increment_preserves_len {s : PointsStorage} {u t : String} {n : Nat}
    (h : ∀ p ∈ s, (p.2).points = (p.2).scannedTargets.length) :
    ∀ p ∈ (incrementUserPoints s u t n).2,
      (p.2).points = (p.2).scannedTargets.length := by
  cases hl : List.lookup u s with
  | none =>
      by_cases hm : t ∈ ((freshRecord u n).scannedTargets)
      · simp [freshRecord] at hm
      · intro p hp
        simp only [incrementUserPoints, hl, Option.getD_none, freshRecord] at hp
        simp only [List.not_mem_nil, if_false] at hp
        rcases mem_setEntry hp with hq | hq
        · subst hq; simp
        · exact h p hq
  | some r =>
      intro p hp
      simp only [incrementUserPoints, hl, Option.getD_some] at hp
      by_cases hm : t ∈ r.scannedTargets
      · simp only [hm, if_pos] at hp
        exact h p hp
      · simp only [hm, if_neg, if_false] at hp
        rcases mem_setEntry hp with hq | hq
        · subst hq
          have := h (u, r) (lookup_mem hl)
          simp at this
          simp [this]
        · exact h p hq

/-- `increment` preserves "the redeemed set has no duplicates" across the
whole storage. -/
theorem increment_preserves_nodup {s : PointsStorage} {u t : String} {n : Nat}
    (h : ∀ p ∈ s, (p.2).scannedTargets.Nodup) :
    ∀ p ∈ (incrementUserPoints s u t n).2, (p.2).scannedTargets.Nodup := by
  cases hl : List.lookup u s with
  | none =>
      intro p hp
      simp only [incrementUserPoints, hl, Option.getD_none, freshRecord] at hp
      simp only [List.not_mem_nil, if_false] at hp
      rcases mem_setEntry hp with hq | hq
      · subst hq; simp
      · exact h p hq
  | some r =>
      intro p hp
      simp only [incrementUserPoints, hl, Option.getD_some] at hp
      by_cases hm : t ∈ r.scannedTargets
      · simp only [hm, if_pos] at hp
        exact h p hp
      · simp only [hm, if_neg, if_false] at hp
        rcases mem_setEntry hp with hq | hq
        · subst hq
          have := h (u, r) (lookup_mem hl)
          simp only at this
          simp [List.nodup_append, this, hm]
        · exact h p hq

/-- Both per-record invariants hold for every storage reachable from a
given well-formed storage by a sequence of increments. -/
theorem applyOps_preserves {s : PointsStorage} (ops : List LedgerOp)
    (hlen : ∀ p ∈ s, (p.2).points = (p.2).scannedTargets.length)
    (hnd : ∀ p ∈ s, (p.2).scannedTargets.Nodup) :
    (∀ p ∈ applyOps s ops, (p.2).points = (p.2).scannedTargets.length) ∧
    (∀ p ∈ applyOps s ops, (p.2).scannedTargets.Nodup) := by
  induction ops generalizing s with
  | nil => exact ⟨hlen, hnd⟩
  | cons op rest ih =>
      have h1 := increment_preserves_len (u := op.1) (t := op.2.1) (n := op.2.2) hlen
      have h2 := increment_preserves_nodup (u := op.1) (t := op.2.1) (n := op.2.2) hnd
      simpa [applyOps] using ih h1 h2

/-- A per-record invariant that holds for fresh records and every stored
record holds for whatever `getUserPoints` returns. -/
theorem getUserPoints_of_WF {P : UserPoints → Prop} {s : PointsStorage}
    (h : ∀ p ∈ s, P p.2) (hfresh : ∀ u n, P (freshRecord u n))
    (u : String) (n : Nat) : P (getUserPoints s u n) := by
  cases hl : List.lookup u s with
  | none => simpa [getUserPoints, hl] using hfresh u n
  | some r =>
      have := h (u, r) (lookup_mem hl)
      simpa [getUserPoints, hl] using this

/-! ### Claim theorems -/

/-- C8: for all pairs of coordinates, the Haversine distance computation
is symmetric: `calculateDistance lat1 lon1 lat2 lon2 =
calculateDistance lat2 lon2 lat1 lon1`. -/
theorem calculateDistance_symm (lat1 lon1 lat2 lon2 : ℝ) :
    calculateDistance lat1 lon1 lat2 lon2 = calculateDistance lat2 lon2 lat1 lon1 := by
  have key : ∀ u v : ℝ,
      Real.sin ((u - v) * Real.pi / 180 / 2) = -Real.sin ((v - u) * Real.pi / 180 / 2) := by
    intro u v
    have h : (u - v) * Real.pi / 180 / 2 = -((v - u) * Real.pi / 180 / 2) := by ring
    rw [h, Real.sin_neg]
  have ha :
      Real.sin ((lat2 - lat1) * Real.pi / 180 / 2) * Real.sin ((lat2 - lat1) * Real.pi / 180 / 2) +
        Real.cos (lat1 * Real.pi / 180) * Real.cos (lat2 * Real.pi / 180) *
          Real.sin ((lon2 - lon1) * Real.pi / 180 / 2) * Real.sin ((lon2 - lon1) * Real.pi / 180 / 2)
      = Real.sin ((lat1 - lat2) * Real.pi / 180 / 2) * Real.sin ((lat1 - lat2) * Real.pi / 180 / 2) +
        Real.cos (lat2 * Real.pi / 180) * Real.cos (lat1 * Real.pi / 180) *
          Real.sin ((lon1 - lon2) * Real.pi / 180 / 2) * Real.sin ((lon1 - lon2) * Real.pi / 180 / 2) := by
    rw [key lat2 lat1, key lon2 lon1]; ring
  simp only [calculateDistance]
  rw [ha]

/-- C7: a location update followed immediately by a location read returns
exactly the just-written fix (all fields intact), the update
unconditionally replaces any previous fix for that participant, and
other participants' fixes are untouched. -/
theorem location_update_roundTrip (locs : LocationStore) (userId : String)
    (fix : GPSCoordinates) (now : Nat) :
    List.lookup userId (locationStoreUpdate locs userId fix now)
      = some { userId := userId, coordinates := fix, lastUpdated := now } ∧
    (∀ other : String, other ≠ userId →
      List.lookup other (locationStoreUpdate locs userId fix now)
        = List.lookup other locs) :=
  ⟨lookup_setEntry_self locs userId _,
   fun other h => lookup_setEntry_other locs userId other _ h⟩

/-- A sample coordinate fix used by concrete witnesses. -/
def sampleFix : GPSCoordinates :=
  { latitude := 0, longitude := 0, accuracy := none, timestamp := 0 }

/-- C7 witness: the round trip evaluated on a concrete store and fix. -/
theorem location_update_roundTrip_witness :
    List.lookup "p1" (locationStoreUpdate [] "p1" sampleFix 7)
      = some { userId := "p1", coordinates := sampleFix, lastUpdated := 7 } ∧
    List.lookup "p2" (locationStoreUpdate [] "p1" sampleFix 7)
      = List.lookup "p2" ([] : LocationStore) :=
  ⟨(location_update_roundTrip [] "p1" sampleFix 7).1,
   (location_update_roundTrip [] "p1" sampleFix 7).2 "p2" (by decide)⟩

/-- A sample storage with three participants at 5, 10 and 3 points. -/
def samplePoints : PointsStorage :=
  [("p1", { userId := "p1", points := 5, lastUpdated := 0, scannedTargets := [] }),
   ("p2", { userId := "p2", points := 10, lastUpdated := 0, scannedTargets := [] }),
   ("p3", { userId := "p3", points := 3, lastUpdated := 0, scannedTargets := [] })]

/-- C9: the leaderboard returns every known points record (a permutation
of the stored values), sorted by point total descending; on totals
5, 10, 3 the returned order of totals is `[10, 5, 3]`. -/
theorem leaderboard_sorted_desc :
    (∀ points : PointsStorage,
      (leaderboardOf points).Perm (points.map Prod.snd) ∧
      List.Sorted (fun a b : UserPoints => b.points ≤ a.points) (leaderboardOf points)) ∧
    (leaderboardOf samplePoints).map UserPoints.points = [10, 5, 3] := by
  constructor
  · intro points
    constructor
    · exact List.perm_insertionSort _ _
    · exact @List.sorted_insertionSort UserPoints (fun a b => b.points ≤ a.points) _
        ⟨fun a b => Nat.le_total b.points a.points⟩
        ⟨fun a b c hab hbc => le_trans hbc hab⟩ (points.map Prod.snd)
  · decide

/-- C10: every points record reachable through the ledger operations has
its point total equal to the number of redeemed targets, and a points
lookup for a participant with no stored record returns a fresh zero
record (total 0, empty redeemed set) rather than an error. -/
theorem points_total_matches_redeemed (ops : List LedgerOp) (u : String) (now : Nat) :
    (getUserPoints (applyOps [] ops) u now).points
      = (getUserPoints (applyOps [] ops) u now).scannedTargets.length ∧
    (∀ (s : PointsStorage) (v : String) (n : Nat),
      List.lookup v s = none → getUserPoints s v n = freshRecord v n) ∧
    (freshRecord u now).points = 0 ∧ (freshRecord u now).scannedTargets = [] := by
  refine ⟨?_, fun s v n h => by simp [getUserPoints, h], by simp [freshRecord],
    by simp [freshRecord]⟩
  have h := applyOps_preserves (s := []) ops (by simp) (by simp)
  exact getUserPoints_of_WF (P := fun r => r.points = r.scannedTargets.length)
    h.1 (fun u n => by simp [freshRecord]) u now

/-- C10 witness: evaluated after one concrete increment, and at a
participant with no stored record. -/
theorem points_total_matches_redeemed_witness :
    (getUserPoints (applyOps [] [("alice", "bob", 1)]) "alice" 0).points
      = (getUserPoints (applyOps [] [("alice", "bob", 1)]) "alice" 0).scannedTargets.length ∧
    getUserPoints ([] : PointsStorage) "carol" 3 = freshRecord "carol" 3 :=
  ⟨(points_total_matches_redeemed [("alice", "bob", 1)] "alice" 0).1,
   (points_total_matches_redeemed [] "x" 0).2.1 [] "carol" 3 rfl⟩

/-- C2: in every storage reachable through the ledger operations a target
appears at most once in a participant's redeemed set; `increment` on an
already-present target returns `false` without mutating anything, and on
an absent target appends it exactly once. -/
theorem redeemedTargets_unique (ops : List LedgerOp) (u t : String) (now : Nat) :
    (getUserPoints (applyOps [] ops) u now).scannedTargets.Nodup ∧
    (∀ (s : PointsStorage) (n n' : Nat),
      t ∈ (getUserPoints s u n).scannedTargets →
        incrementUserPoints s u t n' = (false, s)) ∧
    (∀ (s : PointsStorage) (n n' m : Nat),
      t ∉ (getUserPoints s u n).scannedTargets →
        (getUserPoints (incrementUserPoints s u t n').2 u m).scannedTargets
          = (getUserPoints s u n).scannedTargets ++ [t]) := by
  refine ⟨?_, fun s n n' h => increment_already_scanned h n',
    fun s n n' m h => (increment_accepts h n' m).2.2⟩
  have h := applyOps_preserves (s := []) ops (by simp) (by simp)
  exact getUserPoints_of_WF (P := fun r => r.scannedTargets.Nodup)
    h.2 (fun u n => by simp [freshRecord]) u now

/-- C2 witness: a concrete storage in which `alice` already redeemed
`bob`; the increment is rejected with no mutation. -/
theorem redeemedTargets_unique_witness :
    incrementUserPoints
        [("alice", { userId := "alice", points := 1, lastUpdated := 0,
                     scannedTargets := ["bob"] })] "alice" "bob" 5
      = (false,
         [("alice", { userId := "alice", points := 1, lastUpdated := 0,
                      scannedTargets := ["bob"] })]) :=
  (redeemedTargets_unique [] "alice" "bob" 0).2.1
    [("alice", { userId := "alice", points := 1, lastUpdated := 0,
                 scannedTargets := ["bob"] })] 0 5 (by decide)

/-- C4: when either participant has no stored location the proximity
check returns `notFound` with no computed distance; when both have
locations it returns the Haversine distance (rounded to two decimals)
compared against the fixed 100 m threshold; in all cases the server
state is unchanged. -/
theorem verifyProximity_spec (st : ServerState) (u t : String) :
    ((List.lookup u st.userLocations = none ∨ List.lookup t st.userLocations = none) →
      verifyProximityHandler st u t = (.notFound, st)) ∧
    (∀ ul tl, List.lookup u st.userLocations = some ul →
      List.lookup t st.userLocations = some tl →
      verifyProximityHandler st u t =
        (.ok (calculateDistance ul.coordinates.latitude ul.coordinates.longitude
                tl.coordinates.latitude tl.coordinates.longitude ≤ 100)
          (roundTo2 (calculateDistance ul.coordinates.latitude ul.coordinates.longitude
                tl.coordinates.latitude tl.coordinates.longitude)) 100, st)) ∧
    (verifyProximityHandler st u t).2 = st := by
  refine ⟨?_, ?_, ?_⟩
  · intro h
    cases h1 : List.lookup u st.userLocations with
    | none => cases h2 : List.lookup t st.userLocations <;>
        simp [verifyProximityHandler, h1, h2]
    | some ul =>
        cases h2 : List.lookup t st.userLocations with
        | none => simp [verifyProximityHandler, h1, h2]
        | some tl => simp [h1, h2] at h
  · intro ul tl h1 h2
    simp [verifyProximityHandler, h1, h2]
  · cases h1 : List.lookup u st.userLocations <;>
      cases h2 : List.lookup t st.userLocations <;>
        simp [verifyProximityHandler, h1, h2]

/-- A server state with no stored locations. -/
def emptyState : ServerState :=
  { userLocations := [], selectedUsers := { male := none, female := none, selectedAt := 0 },
    points := [] }

/-- C4 witness: with no stored locations the check returns `notFound` and
leaves the state unchanged. -/
theorem verifyProximity_spec_witness :
    verifyProximityHandler emptyState "p1" "p2" = (.notFound, emptyState) :=
  (verifyProximity_spec emptyState "p1" "p2").1 (Or.inl rfl)

/-- C5: with no opposite-category target selected the scan is rejected
with a "no target currently selected" reason; with a selected target and
a different scanned identity it is rejected as "wrong target" carrying
the expected target; in both cases the points storage is untouched. -/
theorem scan_rejections (userId userGender scannedTargetId : String)
    (sel : SelectedUsers) (storage : PointsStorage) (now : Nat) :
    (expectedTargetOf userGender sel = none →
      scanNfcCore userId userGender scannedTargetId sel storage now
        = (.noTargetSelected (oppositeGenderOf userGender), storage)) ∧
    (∀ expected, expectedTargetOf userGender sel = some expected →
      scannedTargetId ≠ expected →
      scanNfcCore userId userGender scannedTargetId sel storage now
        = (.wrongTarget scannedTargetId expected, storage)) := by
  constructor
  · intro h
    simp [scanNfcCore, h]
  · intro e he hne
    simp [scanNfcCore, he, hne]

/-- A selection with `bob` as the male target and no female target. -/
def sampleSel : SelectedUsers := { male := some "bob", female := none, selectedAt := 0 }

/-- C5 witness: a male scanner finds no female target selected; a female
scanner scanning `carol` instead of the selected `bob` is rejected as
wrong target with expected target `bob`; storage stays empty. -/
theorem scan_rejections_witness :
    scanNfcCore "alice" "M" "bob" sampleSel [] 1
      = (.noTargetSelected "F", ([] : PointsStorage)) ∧
    scanNfcCore "dora" "F" "carol" sampleSel [] 1
      = (.wrongTarget "carol" "bob", ([] : PointsStorage)) :=
  ⟨(scan_rejections "alice" "M" "bob" sampleSel [] 1).1 rfl,
   (scan_rejections "dora" "F" "carol" sampleSel [] 1).2 "bob" rfl (by decide)⟩

/-- C3: after a selection cycle each category slot holds at most one
participant; a non-null selected participant belongs to that category's
partition of the profile snapshot (and so appears in the snapshot with
that gender); a category with zero members yields `none`. -/
theorem selection_cycle_invariant (profiles : List (String × Option String))
    (randM randF now : Nat) :
    (∀ u, (selectRandomUsersPure profiles randM randF now).male = some u →
      u ∈ maleUsersOf profiles) ∧
    (maleUsersOf profiles = [] →
      (selectRandomUsersPure profiles randM randF now).male = none) ∧
    (∀ u, (selectRandomUsersPure profiles randM randF now).female = some u →
      u ∈ femaleUsersOf profiles) ∧
    (femaleUsersOf profiles = [] →
      (selectRandomUsersPure profiles randM randF now).female = none) ∧
    (∀ u, u ∈ maleUsersOf profiles → (u, some "M") ∈ profiles) ∧
    (∀ u, u ∈ femaleUsersOf profiles → (u, some "F") ∈ profiles) := by
  refine ⟨?_, ?_, ?_, ?_, ?_, ?_⟩
  · intro u hu
    by_cases h : (maleUsersOf profiles).length > 0
    · simp only [selectRandomUsersPure, h, if_pos] at hu
      exact List.get?_mem hu
    · simp [selectRandomUsersPure, h] at hu
  · intro h
    simp [selectRandomUsersPure, h]
  · intro u hu
    by_cases h : (femaleUsersOf profiles).length > 0
    · simp only [selectRandomUsersPure, h, if_pos] at hu
      exact List.get?_mem hu
    · simp [selectRandomUsersPure, h] at hu
  · intro h
    simp [selectRandomUsersPure, h]
  · intro u hu
    simp only [maleUsersOf, List.mem_map, List.mem_filter] at hu
    obtain ⟨⟨u', g⟩, ⟨hmem, hg⟩, rfl⟩ := hu
    have : g = some "M" := by simpa using hg
    simpa [this] using hmem
  · intro u hu
    simp only [femaleUsersOf, List.mem_map, List.mem_filter] at hu
    obtain ⟨⟨u', g⟩, ⟨hmem, hg⟩, rfl⟩ := hu
    have : g = some "F" := by simpa using hg
    simpa [this] using hmem

/-- C3 witness: a snapshot with one male and no females selects that male
and leaves the female slot empty. -/
theorem selection_cycle_invariant_witness :
    "p1" ∈ maleUsersOf [("p1", some "M")] ∧
    (selectRandomUsersPure [("p1", some "M")] 0 0 0).female = none ∧
    ("p1", some "M") ∈ [("p1", some "M")] :=
  ⟨(selection_cycle_invariant [("p1", some "M")] 0 0 0).1 "p1" rfl,
   (selection_cycle_invariant [("p1", some "M")] 0 0 0).2.2.2.1 rfl,
   (selection_cycle_invariant [("p1", some "M")] 0 0 0).2.2.2.2.1 "p1" (by decide)⟩

/-- C1: with the scanned target equal to the selected opposite-category
target and not yet redeemed, the first scan succeeds and grants exactly
one point; the second identical scan is rejected as a duplicate
redemption (a typed rejection, not an error) with the points storage
unchanged, so the total and the redeemed set stay at their
post-first-call values. -/
theorem confirmScan_idempotent (userId userGender scannedTargetId : String)
    (sel : SelectedUsers) (storage : PointsStorage) (now1 now2 n : Nat)
    (hsel : expectedTargetOf userGender sel = some scannedTargetId)
    (hfresh : scannedTargetId ∉ (getUserPoints storage userId n).scannedTargets) :
    (∃ total cnt,
      (scanNfcCore userId userGender scannedTargetId sel storage now1).1
        = .success scannedTargetId total cnt) ∧
    scanNfcCore userId userGender scannedTargetId sel
        (scanNfcCore userId userGender scannedTargetId sel storage now1).2 now2
      = (.duplicateRedemption scannedTargetId,
         (scanNfcCore userId userGender scannedTargetId sel storage now1).2) ∧
    (getUserPoints (scanNfcCore userId userGender scannedTargetId sel storage now1).2
        userId n).points
      = (getUserPoints storage userId n).points + 1 ∧
    (getUserPoints (scanNfcCore userId userGender scannedTargetId sel storage now1).2
        userId n).scannedTargets
      = (getUserPoints storage userId n).scannedTargets ++ [scannedTargetId] := by
  obtain ⟨hacc, hpts, htg⟩ := increment_accepts hfresh now1 n
  have hres : scanNfcCore userId userGender scannedTargetId sel storage now1
      = (.success scannedTargetId
          (getUserPoints (incrementUserPoints storage userId scannedTargetId now1).2
            userId now1).points
          (getUserPoints (incrementUserPoints storage userId scannedTargetId now1).2
            userId now1).scannedTargets.length,
         (incrementUserPoints storage userId scannedTargetId now1).2) := by
    simp [scanNfcCore, hsel, hacc]
  have hmem2 : scannedTargetId ∈
      (getUserPoints (incrementUserPoints storage userId scannedTargetId now1).2
        userId n).scannedTargets := by
    rw [htg]
    exact List.mem_append_right _ (List.mem_singleton_self _)
  have hdup := increment_already_scanned hmem2 now2
  refine ⟨⟨_, _, by rw [hres]⟩, ?_, ?_, ?_⟩
  · rw [hres]
    simp [scanNfcCore, hsel, hdup]
  · rw [hres]
    exact hpts
  · rw [hres]
    exact htg

/-- C1 witness: `alice` (female) scans the selected male target `bob`
twice starting from an empty storage; the second call is a duplicate
redemption leaving the storage as after the first call. -/
theorem confirmScan_idempotent_witness :
    expectedTargetOf "F" sampleSel = some "bob" ∧
    scanNfcCore "alice" "F" "bob" sampleSel
        (scanNfcCore "alice" "F" "bob" sampleSel [] 1).2 2
      = (.duplicateRedemption "bob",
         (scanNfcCore "alice" "F" "bob" sampleSel [] 1).2) :=
  ⟨rfl,
   (confirmScan_idempotent "alice" "F" "bob" sampleSel [] 1 2 0 rfl (by decide)).2.1⟩

/-- `broadcastStep` never changes a channel's `readyState`. -/
theorem broadcastStep_preserves_open (now : Nat) (c : WSClient) :
    ((broadcastStep now c).2).readyStateOpen = c.readyStateOpen := by
  simp only [broadcastStep]
  by_cases h1 : c.readyStateOpen <;> by_cases h2 : c.sendSucceeds <;> simp [h1, h2]

/-- C6 (amended): each registered channel is visited exactly once per
fan-out pass and its outcome depends on that channel alone, so a
per-recipient failure never aborts delivery to the rest; every channel
is tallied (sent + failed = registered); the pass itself removes
nothing and returns normally; the cleanup sweep then removes exactly the
channels whose state is not open — a channel whose send failed while
open stays registered. -/
theorem broadcast_fanout_spec (clients : List WSClient) (now : Nat) :
    (broadcastToClients clients now).outcomes
      = clients.map (fun c => (c.info.id, (broadcastStep now c).1)) ∧
    (broadcastToClients clients now).sentCount
        + (broadcastToClients clients now).failedCount = clients.length ∧
    (broadcastToClients clients now).clients
      = clients.map (fun c => (broadcastStep now c).2) ∧
    removeInactiveClients (broadcastToClients clients now).clients
      = (clients.filter (fun c => c.readyStateOpen)).map
          (fun c => (broadcastStep now c).2) := by
  refine ⟨?_, ?_, ?_, ?_⟩
  · induction clients with
    | nil => simp [broadcastToClients]
    | cons c rest ih => simp [broadcastToClients, ih]
  · induction clients with
    | nil => simp [broadcastToClients]
    | cons c rest ih =>
        by_cases h : (broadcastStep now c).1 = SendOutcome.sent <;>
          simp [broadcastToClients, h] <;> omega
  · induction clients with
    | nil => simp [broadcastToClients]
    | cons c rest ih => simp [broadcastToClients, ih]
  · induction clients with
    | nil => simp [broadcastToClients, removeInactiveClients]
    | cons c rest ih =>
        by_cases h : c.readyStateOpen <;>
          simp [broadcastToClients, removeInactiveClients, List.filter,
            broadcastStep_preserves_open, h] <;>
          simpa [removeInactiveClients] using ih

/-- A registered, open channel whose send throws. -/
def failingClient : WSClient :=
  { info := { id := "client_1", connectedAt := 0, lastActivity := 0 },
    readyStateOpen := true, sendSucceeds := false }

/-- C6 counterexample: an open channel whose send fails is counted as
failed but is NOT removed — it survives both the fan-out pass and the
cleanup sweep, contradicting "a channel whose send fails … is treated as
dead and removed". -/
theorem broadcast_sendFail_not_removed :
    (broadcastToClients [failingClient] 5).outcomes
      = [("client_1", SendOutcome.sendFailed)] ∧
    (broadcastToClients [failingClient] 5).failedCount = 1 ∧
    removeInactiveClients (broadcastToClients [failingClient] 5).clients
      = [failingClient] := by decide

end Etgl
